import Mathlib

/-!
Shallow embedding of the control backend layer of `cameractrls.py` together
with theorems checking the natural-language specification against it.

The embedding models Python integers as `Int`/`Nat`, Python floats as exact
rationals `ℚ` (all numeric literals exercised by the claims are exactly
representable and stay far away from double rounding boundaries), Python
strings as `String`, raised exceptions as `Except PyErr`, and the camera
device (ioctl calls) as explicit function parameters.
-/

namespace Cameractrls

/-- Python exception kinds relevant to the embedded code paths. -/
inductive PyErr where
  | valueError
  | typeError
  | overflowError
  | assertionError
  deriving DecidableEq, Repr

/-- Python `round` on an exact rational value: round half to even (banker's
rounding), which is what Python 3 `round` implements for both int and float
arguments.  Used in specification statements; the executable embedding works
on explicit fractions through `pyRoundFrac`. -/
def pyRound (q : ℚ) : Int :=
  if q - (⌊q⌋ : ℚ) < 1/2 then ⌊q⌋
  else if 1/2 < q - (⌊q⌋ : ℚ) then ⌊q⌋ + 1
  else if ⌊q⌋ % 2 = 0 then ⌊q⌋ else ⌊q⌋ + 1

/-- Python `int(x)` on an exact rational value: truncation toward zero. -/
def pyTrunc (q : ℚ) : Int :=
  if 0 ≤ q then ⌊q⌋ else -⌊-q⌋

/-- Executable banker's rounding of the fraction `n / d` (`d > 0` intended):
`Int.fdiv n d` is the floor, `n - floor * d` the remainder. -/
def pyRoundFrac (n : Int) (d : Nat) : Int :=
  if 2 * (n - Int.fdiv n d * d) < (d : Int) then Int.fdiv n d
  else if (d : Int) < 2 * (n - Int.fdiv n d * d) then Int.fdiv n d + 1
  else if Int.fdiv n d % 2 = 0 then Int.fdiv n d else Int.fdiv n d + 1

/-- Executable truncation toward zero of the fraction `n / d`. -/
def pyTruncFrac (n : Int) (d : Nat) : Int :=
  if 0 ≤ n then Int.fdiv n d else -Int.fdiv (-n) d

theorem fdiv_eq_floor (n : Int) (d : Nat) (hd : 0 < d) :
    Int.fdiv n (d : Int) = ⌊(n : ℚ) / (d : ℚ)⌋ := by
  rw [Rat.floor_intCast_div_natCast, Int.fdiv_eq_ediv _ (by positivity)]

/-- `pyRoundFrac` computes `pyRound` of the corresponding rational. -/
theorem pyRoundFrac_eq (n : Int) (d : Nat) (hd : 0 < d) :
    pyRoundFrac n d = pyRound ((n : ℚ) / (d : ℚ)) := by
  have hdq : (0 : ℚ) < (d : ℚ) := by exact_mod_cast hd
  have hf := fdiv_eq_floor n d hd
  have hfrac : (n : ℚ) / (d : ℚ) - ((⌊(n : ℚ) / (d : ℚ)⌋ : Int) : ℚ) =
      ((n - Int.fdiv n d * d : Int) : ℚ) / (d : ℚ) := by
    rw [hf]
    push_cast
    field_simp
    ring
  have key : ∀ a : Int, (((a : ℚ) / (d : ℚ) < 1/2) ↔ 2 * a < (d : Int)) := by
    intro a
    rw [div_lt_div_iff hdq (by norm_num : (0:ℚ) < 2)]
    constructor
    · intro h
      exact_mod_cast (by linarith : ((2 : ℚ) * a < (d : ℚ)))
    · intro h
      have : ((2 : ℚ) * a) < (d : ℚ) := by exact_mod_cast h
      linarith
  have key2 : ∀ a : Int, ((1/2 < (a : ℚ) / (d : ℚ)) ↔ (d : Int) < 2 * a) := by
    intro a
    rw [lt_div_iff hdq]
    constructor
    · intro h
      exact_mod_cast (by linarith : ((d : ℚ) < 2 * a))
    · intro h
      have : ((d : ℚ)) < 2 * a := by exact_mod_cast h
      linarith
  simp only [pyRoundFrac, pyRound, hfrac, key, key2, hf]

/-- `pyTruncFrac` computes `pyTrunc` of the corresponding rational. -/
theorem pyTruncFrac_eq (n : Int) (d : Nat) (hd : 0 < d) :
    pyTruncFrac n d = pyTrunc ((n : ℚ) / (d : ℚ)) := by
  have hdq : (0 : ℚ) < (d : ℚ) := by exact_mod_cast hd
  have hsign : (0 ≤ n) ↔ (0 ≤ (n : ℚ) / (d : ℚ)) := by
    rw [le_div_iff hdq]
    constructor
    · intro h
      exact_mod_cast (by simpa using (by exact_mod_cast h : (0 : ℚ) ≤ (n : ℚ)))
    · intro h
      exact_mod_cast (by simpa using h : (0 : ℚ) ≤ (n : ℚ))
  rw [pyTruncFrac, pyTrunc]
  by_cases h : 0 ≤ n
  · rw [if_pos h, if_pos (hsign.mp h), fdiv_eq_floor n d hd]
  · rw [if_neg h, if_neg (fun hh => h (hsign.mpr hh)), fdiv_eq_floor (-n) d hd]
    congr 1
    congr 1
    push_cast
    ring

/-- Numeric value of a list of decimal digit characters (most significant first). -/
def digitsVal (cs : List Char) : Nat :=
  cs.foldl (fun a c => a * 10 + (c.toNat - 48)) 0

/-- Nonempty and all decimal digits. -/
def isDigits (cs : List Char) : Bool :=
  !cs.isEmpty && cs.all Char.isDigit

/-- Models Python `int(s)` for plain decimal integer literals with an optional
sign: `some` of the value on success, `none` when Python raises `ValueError`.
(Whitespace, underscores and other bases accepted by Python are out of scope
for the claims.) -/
def pyInt? (s : String) : Option Int :=
  match s.data with
  | '-' :: rest => if isDigits rest then some (-(digitsVal rest : Int)) else none
  | '+' :: rest => if isDigits rest then some ((digitsVal rest : Int)) else none
  | cs => if isDigits cs then some ((digitsVal cs : Int)) else none

/-- An exact decimal number `m / 10^e`: the result of parsing a decimal
literal.  Python represents these as binary doubles; the claims only exercise
literals whose behaviour is identical under exact-decimal and double
semantics. -/
structure DecFloat where
  m : Int
  e : Nat
  deriving DecidableEq, Repr

/-- The rational value of a parsed decimal. -/
def DecFloat.toRat (f : DecFloat) : ℚ :=
  (f.m : ℚ) / (10 : ℚ) ^ f.e

/-- Core of `pyFloat?`: parse an unsigned decimal literal with at most one dot. -/
def pyFloatCore (cs : List Char) : Option DecFloat :=
  let ip := cs.takeWhile (fun c => c ≠ '.')
  match cs.dropWhile (fun c => c ≠ '.') with
  | [] => if isDigits ip then some ⟨(digitsVal ip : Int), 0⟩ else none
  | _ :: fp =>
    if (!ip.isEmpty || !fp.isEmpty) && ip.all Char.isDigit && fp.all Char.isDigit then
      some ⟨(digitsVal ip * 10 ^ fp.length + digitsVal fp : Nat), fp.length⟩
    else none

/-- Models Python `float(s)` for plain decimal literals with an optional sign
and at most one decimal point, read as an exact decimal.  (Exponents,
`inf`/`nan` and whitespace are out of scope for the claims.) -/
def pyFloat? (s : String) : Option DecFloat :=
  match s.data with
  | '-' :: rest => (pyFloatCore rest).map (fun f => ⟨-f.m, f.e⟩)
  | '+' :: rest => pyFloatCore rest
  | cs => pyFloatCore cs

/-- A Python value stored in a control's dynamically typed `value`/`default`
attribute: `None`, an int, a str, or a bytes buffer. -/
inductive CtrlValue where
  | none
  | int (n : Int)
  | str (s : String)
  | bytes (bs : List Nat)
  deriving DecidableEq, Repr

/-- Python `str(v)` for the values that can reach it in the embedded paths. -/
def pyStr (v : CtrlValue) : String :=
  match v with
  | .int n => toString n
  | .str s => s
  | .none => "None"
  | .bytes _ => "bytes"

/-- `to_bool` (cameractrls.py line 1116): a string is true iff its lowercase
form is one of the positive spellings; any other value goes through `bool()`. -/
def to_bool (v : CtrlValue) : Bool :=
  match v with
  | .str s => ["y", "yes", "t", "true", "on", "1"].contains s.toLower
  | .int n => n ≠ 0
  | .none => false
  | .bytes bs => !bs.isEmpty

/-! ## Generic control backend (`V4L2Ctrls`) -/

/-- `BaseCtrlMenu` (line 1157) as used by the generic backend: menu entries of
V4L2 menu controls carry the integer menu index as their encoded value. -/
structure BaseCtrlMenu where
  text_id : String
  name : String
  value : Int
  deriving DecidableEq, Repr

/-- `V4L2Ctrl` (line 2106): the fields of a generic control that the embedded
operations read or write. -/
structure V4L2Ctrl where
  v4l2_id : Nat
  text_id : String
  type : String
  value : CtrlValue
  default : CtrlValue
  min : Int
  max : Int
  menu : List BaseCtrlMenu
  deriving DecidableEq, Repr

/-- `find_by_text_id` (line 1072) over controls: first control with the id. -/
def find_by_text_id : List V4L2Ctrl → String → Option V4L2Ctrl
  | [], _ => Option.none
  | c :: cs, k => if c.text_id = k then some c else find_by_text_id cs k

/-- `find_by_text_id` (line 1072) over a control's menu entries. -/
def find_menu_by_text_id : List BaseCtrlMenu → String → Option BaseCtrlMenu
  | [], _ => Option.none
  | m :: ms, k => if m.text_id = k then some m else find_menu_by_text_id ms k

/-- `find_by_value` (line 1066): first menu entry with the encoded value. -/
def find_by_value : List BaseCtrlMenu → Int → Option BaseCtrlMenu
  | [], _ => Option.none
  | m :: ms, v => if m.value = v then some m else find_by_value ms v

/-- Mutating the control object returned by `find_by_text_id`: the first
control carrying the id is replaced, the rest of the list is untouched. -/
def updateFirst (f : V4L2Ctrl → V4L2Ctrl) : List V4L2Ctrl → String → List V4L2Ctrl
  | [], _ => []
  | c :: cs, k => if c.text_id = k then f c :: cs else c :: updateFirst f cs k

/-- Python `s.endswith(given one-character suffix)`. -/
def endsPercent (s : String) : Bool :=
  s.data.getLast? = some '%'

/-- Python `int(v)` applied to a dynamically typed value (line 2146):
ints pass through, strings are parsed (ValueError on failure), anything
else raises TypeError. -/
def pyIntOf (v : CtrlValue) : Except PyErr Int :=
  match v with
  | .int n => .ok n
  | .str s => match pyInt? s with
    | some n => .ok n
    | Option.none => .error .valueError
  | _ => .error .typeError

/-- The percentage branch of `V4L2Ctrls.setup_ctrls` (lines 2140-2144):
`percent = float(str(v)[:-1]) / 100` then
`intvalue = round(min + (default-min)*percent*2)` then
`intvalue = min(max, intvalue)` then `intvalue = max(min, intvalue)`.
With the parsed percentage `q = m/10^e` the rounded expression is the exact
fraction `(min*(100*10^e) + (default-min)*m*2) / (100*10^e)`, which is what
is computed here (`pyRoundFrac_eq` connects it to `pyRound` over ℚ).
Subtracting a non-numeric `default` raises TypeError in Python. -/
def percentValue (cmin : Int) (cdefault : CtrlValue) (cmax : Int) (q : DecFloat) :
    Except PyErr Int :=
  match cdefault with
  | .int d =>
    let intvalue :=
      pyRoundFrac (cmin * (100 * 10 ^ q.e : Int) + (d - cmin) * q.m * 2) (100 * 10 ^ q.e)
    let intvalue := min cmax intvalue
    let intvalue := max cmin intvalue
    .ok intvalue
  | _ => .error .typeError

/-- Lines 2135-2159 of `V4L2Ctrls.setup_ctrls`: compute the numeric value to
write for a control.  `.ok (.inr iv)` reaches the write with value `iv`;
`.ok (.inl w)` records warning `w` and continues with the next batch entry;
`.error` is an uncaught Python exception. -/
def ctrl_int_value (ctrl : V4L2Ctrl) (v : CtrlValue) : Except PyErr (Sum String Int) :=
  if ctrl.type = "integer" then
    if endsPercent (pyStr v) then
      match pyFloat? ((pyStr v).dropRight 1) with
      | some q => (percentValue ctrl.min ctrl.default ctrl.max q).map Sum.inr
      | Option.none => .error .valueError
    else (pyIntOf v).map Sum.inr
  else if ctrl.type = "boolean" then
    .ok (.inr (if to_bool v then 1 else 0))
  else if ctrl.type = "menu" then
    match v with
    | .str s =>
      match find_menu_by_text_id ctrl.menu s with
      | some m => .ok (.inr m.value)
      | Option.none => .ok (.inl s!"V4L2Ctrls: Cannot find {s} in the menu of {ctrl.text_id}")
    | _ => .ok (.inl s!"V4L2Ctrls: Cannot find the value in the menu of {ctrl.text_id}")
  else if ctrl.type = "button" then
    .ok (.inr 0)
  else
    .ok (.inl s!"V4L2Ctrls: Cannot set {ctrl.text_id} (Unsupported control type)")

/-- State threaded through `V4L2Ctrls.setup_ctrls`: the control registry, the
collected warnings (`errs`), and a trace of the `VIDIOC_S_CTRL` calls issued
(pairs of numeric id and requested value), recording each device write. -/
structure V4L2State where
  ctrls : List V4L2Ctrl
  errs : List String
  writes : List (Nat × Int)
  deriving DecidableEq, Repr

/-- The warning text of line 2164 (read-back mismatch). -/
def mismatch_warning (k : String) (rv : Int) : String :=
  s!"V4L2Ctrls: Cannot set {k} using {rv}"

/-- The try block of lines 2160-2172.  The device is a function from
(numeric control id, requested value) to the value the driver reports back in
the written struct, `Option.none` meaning the ioctl raised.  On success with a
matching read-back the in-memory control is updated (menu controls store the
textual value `v`, others the numeric value); on mismatch or exception a
warning is collected and the control is left unchanged. -/
def tryWrite (dev : Nat → Int → Option Int) (st : V4L2State) (ctrl : V4L2Ctrl)
    (k : String) (v : CtrlValue) (intvalue : Int) : V4L2State :=
  let st := { st with writes := st.writes ++ [(ctrl.v4l2_id, intvalue)] }
  match dev ctrl.v4l2_id intvalue with
  | Option.none => { st with errs := st.errs ++ [s!"V4L2Ctrls: Cannot set {k}"] }
  | some rv =>
    if rv ≠ intvalue then
      { st with errs := st.errs ++ [mismatch_warning k rv] }
    else
      let upd := fun c =>
        { c with value := if c.type = "menu" then v else CtrlValue.int intvalue }
      { st with ctrls := updateFirst upd st.ctrls k }

/-- One iteration of the loop of `V4L2Ctrls.setup_ctrls` (lines 2131-2172) for
the batch entry `(k, vstr)`. -/
def setup_ctrl_step (dev : Nat → Int → Option Int) (st : V4L2State)
    (k vstr : String) : Except PyErr V4L2State :=
  match find_by_text_id st.ctrls k with
  | Option.none => .ok st
  | some ctrl =>
    let v : CtrlValue := if vstr = "default" then ctrl.default else .str vstr
    match ctrl_int_value ctrl v with
    | .error e => .error e
    | .ok (.inl w) => .ok { st with errs := st.errs ++ [w] }
    | .ok (.inr iv) => .ok (tryWrite dev st ctrl k v iv)

/-- `V4L2Ctrls.setup_ctrls` (line 2130): fold the per-entry step over the
batch, in batch order (Python dict iteration is insertion-ordered). -/
def V4L2Ctrls.setup_ctrls (dev : Nat → Int → Option Int) (st : V4L2State)
    (params : List (String × String)) : Except PyErr V4L2State :=
  params.foldlM (fun st kv => setup_ctrl_step dev st kv.1 kv.2) st

/-- The value the spec's wording assigns to a percentage write:
`round(min + 2*(default-min)*(p/100))` clamped into `[min, max]`. -/
def specPercentValue (cmin d cmax : Int) (p : ℚ) : Int :=
  max cmin (min cmax (pyRound ((cmin : ℚ) + 2 * ((d : ℚ) - (cmin : ℚ)) * (p / 100))))

theorem find_by_text_id_updateFirst (f : V4L2Ctrl → V4L2Ctrl)
    (hf : ∀ c, (f c).text_id = c.text_id) :
    ∀ (ctrls : List V4L2Ctrl) (k : String),
      find_by_text_id (updateFirst f ctrls k) k = (find_by_text_id ctrls k).map f := by
  intro ctrls k
  induction ctrls with
  | nil => rfl
  | cons c cs ih =>
    by_cases h : c.text_id = k
    · simp [updateFirst, find_by_text_id, h, hf]
    · simp [updateFirst, find_by_text_id, h, ih]

instance {ε α : Type} [DecidableEq ε] [DecidableEq α] : DecidableEq (Except ε α) := fun a b =>
  match a, b with
  | .ok x, .ok y =>
    if h : x = y then .isTrue (congrArg Except.ok h)
    else .isFalse (fun hh => h (Except.ok.inj hh))
  | .error x, .error y =>
    if h : x = y then .isTrue (congrArg Except.error h)
    else .isFalse (fun hh => h (Except.error.inj hh))
  | .ok _, .error _ => .isFalse (fun hh => Except.noConfusion hh)
  | .error _, .ok _ => .isFalse (fun hh => Except.noConfusion hh)

/-- When the device echoes the requested value, `tryWrite` records the write
and updates the first control carrying the id. -/
theorem tryWrite_ok (dev : Nat → Int → Option Int) (st : V4L2State)
    (ctrl : V4L2Ctrl) (k : String) (v : CtrlValue) (iv : Int)
    (hdev : dev ctrl.v4l2_id iv = some iv) :
    tryWrite dev st ctrl k v iv =
      { st with
        writes := st.writes ++ [(ctrl.v4l2_id, iv)],
        ctrls := updateFirst
          (fun c => { c with value := if c.type = "menu" then v else CtrlValue.int iv })
          st.ctrls k } := by
  simp only [tryWrite, hdev]
  rw [if_neg (by simp)]

/-- When the device reports back a different value, `tryWrite` records the
write and the mismatch warning, and leaves every control unchanged. -/
theorem tryWrite_mismatch (dev : Nat → Int → Option Int) (st : V4L2State)
    (ctrl : V4L2Ctrl) (k : String) (v : CtrlValue) (iv rv : Int)
    (hdev : dev ctrl.v4l2_id iv = some rv) (hne : rv ≠ iv) :
    tryWrite dev st ctrl k v iv =
      { st with
        writes := st.writes ++ [(ctrl.v4l2_id, iv)],
        errs := st.errs ++ [mismatch_warning k rv] } := by
  simp only [tryWrite, hdev]
  rw [if_pos hne]

/-- An integer control with min 0, default 50, max 255 (the spec's example). -/
def c1Ctrl : V4L2Ctrl :=
  { v4l2_id := 1, text_id := "c", type := "integer", value := CtrlValue.int 7,
    default := CtrlValue.int 50, min := 0, max := 255, menu := [] }

/-- A device that accepts every write verbatim. -/
def echoDev : Nat → Int → Option Int := fun _ n => some n

/-- C1: applying a percentage string "NN%" to an integer control sets its value
to `round(min + 2*(default-min)*(NN/100))` clamped into `[min,max]`; with
min=0, default=50, max=255 applying "0%"/"50%"/"100%"/"200%" yields
0/50/100/200 (not 255). -/
theorem C1_percent_mapping
    (dev : Nat → Int → Option Int) (st : V4L2State) (k vstr : String)
    (ctrl : V4L2Ctrl) (q : DecFloat) (d : Int)
    (hfind : find_by_text_id st.ctrls k = some ctrl)
    (htype : ctrl.type = "integer")
    (hdef : ctrl.default = CtrlValue.int d)
    (hpct : endsPercent vstr = true)
    (hq : pyFloat? (vstr.dropRight 1) = some q)
    (hdev : dev ctrl.v4l2_id (specPercentValue ctrl.min d ctrl.max q.toRat) =
      some (specPercentValue ctrl.min d ctrl.max q.toRat)) :
    (∃ st2, setup_ctrl_step dev st k vstr = .ok st2 ∧
        find_by_text_id st2.ctrls k =
          some { ctrl with value := CtrlValue.int (specPercentValue ctrl.min d ctrl.max q.toRat) }) ∧
      (∀ s r, (s, r) ∈ [("0%", 0), ("50%", 50), ("100%", 100), ("200%", 200)] →
        (V4L2Ctrls.setup_ctrls echoDev ⟨[c1Ctrl], [], []⟩ [("c", s)]).map
            (fun st => st.ctrls.map V4L2Ctrl.value) = .ok [CtrlValue.int r]) := by
  have hbridge : pyRoundFrac (ctrl.min * (100 * 10 ^ q.e : Int) + (d - ctrl.min) * q.m * 2)
      (100 * 10 ^ q.e) =
      pyRound ((ctrl.min : ℚ) + 2 * ((d : ℚ) - (ctrl.min : ℚ)) * (q.toRat / 100)) := by
    rw [pyRoundFrac_eq _ _ (by positivity)]
    congr 1
    rw [DecFloat.toRat]
    have h10 : ((10 : ℚ)) ^ q.e ≠ 0 := by positivity
    push_cast
    field_simp
    ring
  constructor
  · have hne : vstr ≠ "default" := by
      intro h
      subst h
      simp [endsPercent] at hpct
    have hcv : ctrl_int_value ctrl (CtrlValue.str vstr) =
        .ok (.inr (specPercentValue ctrl.min d ctrl.max q.toRat)) := by
      simp only [ctrl_int_value, htype, if_true, pyStr, hpct, if_pos, hq,
        eq_self_iff_true]
      simp only [percentValue, hdef]
      rw [specPercentValue, ← hbridge]
      rfl
    refine ⟨tryWrite dev st ctrl k (CtrlValue.str vstr)
      (specPercentValue ctrl.min d ctrl.max q.toRat), ?_, ?_⟩
    · simp only [setup_ctrl_step, hfind, if_neg hne, hcv]
    · rw [tryWrite_ok dev st ctrl k _ _ hdev]
      rw [find_by_text_id_updateFirst
        (fun c => { c with value := if c.type = "menu" then CtrlValue.str vstr
          else CtrlValue.int (specPercentValue ctrl.min d ctrl.max q.toRat) })
        (fun c => rfl) st.ctrls k, hfind]
      simp only [Option.map_some']
      have hif : (if ctrl.type = "menu" then CtrlValue.str vstr
          else CtrlValue.int (specPercentValue ctrl.min d ctrl.max q.toRat)) =
          CtrlValue.int (specPercentValue ctrl.min d ctrl.max q.toRat) := by
        rw [if_neg (by rw [htype]; decide)]
      rw [hif]
  · intro s r hmem
    simp only [List.mem_cons, List.not_mem_nil, or_false] at hmem
    rcases hmem with h | h | h | h <;> (cases h; decide)

/-- Closed witness for `C1_percent_mapping` at min=0, default=50, max=255 and
the percentage "200%". -/
theorem C1_percent_mapping_witness :
    (∃ st2, setup_ctrl_step echoDev ⟨[c1Ctrl], [], []⟩ "c" "200%" = .ok st2 ∧
        find_by_text_id st2.ctrls "c" =
          some { c1Ctrl with
            value := CtrlValue.int (specPercentValue 0 50 255 (DecFloat.toRat ⟨200, 0⟩)) }) ∧
      (∀ s r, (s, r) ∈ [("0%", 0), ("50%", 50), ("100%", 100), ("200%", 200)] →
        (V4L2Ctrls.setup_ctrls echoDev ⟨[c1Ctrl], [], []⟩ [("c", s)]).map
            (fun st => st.ctrls.map V4L2Ctrl.value) = .ok [CtrlValue.int r]) :=
  C1_percent_mapping echoDev ⟨[c1Ctrl], [], []⟩ "c" "200%" c1Ctrl ⟨200, 0⟩ 50
    rfl rfl rfl (by decide) (by decide) rfl

/-- A control used by the C2 read-back-mismatch scenario. -/
def c2Ctrl : V4L2Ctrl :=
  { v4l2_id := 2, text_id := "b", type := "integer", value := CtrlValue.int 7,
    default := CtrlValue.int 50, min := 0, max := 255, menu := [] }

/-- A device whose writes always come back as 999. -/
def c2Dev : Nat → Int → Option Int := fun _ _ => some 999

/-- C2: when the value read back after a write differs from the requested
numeric value, `setup_ctrls` records one warning, leaves the in-memory control
unchanged, issues exactly one device write for the entry, and continues with
the remaining batch entries; there is no retry. -/
theorem C2_mismatch_warn_no_retry
    (dev : Nat → Int → Option Int) (st : V4L2State) (k vstr : String)
    (rest : List (String × String)) (ctrl : V4L2Ctrl) (iv rv : Int)
    (hfind : find_by_text_id st.ctrls k = some ctrl)
    (hv : ctrl_int_value ctrl (if vstr = "default" then ctrl.default else CtrlValue.str vstr) =
      .ok (.inr iv))
    (hdev : dev ctrl.v4l2_id iv = some rv)
    (hne : rv ≠ iv) :
    V4L2Ctrls.setup_ctrls dev st ((k, vstr) :: rest) =
      V4L2Ctrls.setup_ctrls dev
        { ctrls := st.ctrls,
          errs := st.errs ++ [mismatch_warning k rv],
          writes := st.writes ++ [(ctrl.v4l2_id, iv)] } rest := by
  have hstep : setup_ctrl_step dev st k vstr =
      .ok { ctrls := st.ctrls, errs := st.errs ++ [mismatch_warning k rv],
            writes := st.writes ++ [(ctrl.v4l2_id, iv)] } := by
    simp only [setup_ctrl_step, hfind, hv]
    rw [tryWrite_mismatch dev st ctrl k _ iv rv hdev hne]
  simp only [V4L2Ctrls.setup_ctrls, List.foldlM_cons, hstep]
  rfl

/-- Closed witness for `C2_mismatch_warn_no_retry`: a device that reports 999
back for a requested 5. -/
theorem C2_mismatch_warn_no_retry_witness :
    V4L2Ctrls.setup_ctrls c2Dev ⟨[c2Ctrl], [], []⟩ [("b", "5")] =
      V4L2Ctrls.setup_ctrls c2Dev
        { ctrls := [c2Ctrl], errs := [] ++ [mismatch_warning "b" 999],
          writes := [] ++ [(2, 5)] } [] :=
  C2_mismatch_warn_no_retry c2Dev ⟨[c2Ctrl], [], []⟩ "b" "5" [] c2Ctrl 5 999
    rfl (by decide) rfl (by decide)

/-! ## Format backend (`V4L2FmtCtrls`): frame-rate write -/

/-- The `timeperframe` fraction of the kernel stream-parameter struct.  Both
fields are u32 in the kernel ABI; every value the claims exercise is far below
2^32, so the wrap-around is omitted from the model. -/
structure Timeperframe where
  numerator : Nat
  denominator : Int
  deriving DecidableEq, Repr

/-- Lines 2524-2527 of `V4L2FmtCtrls.set_fps`: the stream parameter written to
the device has `numerator = 10` and
`denominator = int(float(fps) * 10)` — Python `int()` on a float truncates
toward zero.  An unparseable fps string raises ValueError. -/
def set_fps_parm (fps : String) : Except PyErr Timeperframe :=
  match pyFloat? fps with
  | some q => .ok ⟨10, pyTruncFrac (q.m * 10) (10 ^ q.e)⟩
  | Option.none => .error .valueError

/-- C3 counterexample: for fps "29.97" the code writes denominator 299
(truncation), while the claim's `round(fps × 10)` is 300. -/
theorem C3_fps_round_counterexample :
    pyFloat? "29.97" = some ⟨2997, 2⟩ ∧
      set_fps_parm "29.97" = .ok ⟨10, 299⟩ ∧
      pyRound ((DecFloat.toRat ⟨2997, 2⟩) * 10) = 300 ∧ (299 : Int) ≠ 300 := by
  refine ⟨by decide, by decide, ?_, by decide⟩
  have h : (DecFloat.toRat ⟨2997, 2⟩) * 10 = ((29970 : Int) : ℚ) / ((100 : Nat) : ℚ) := by
    rw [DecFloat.toRat]
    push_cast
    ring
  rw [h, ← pyRoundFrac_eq _ _ (by norm_num)]
  decide

/-- C3 (amended): the frame-rate write fixes the numerator to exactly 10 and
sets the denominator to `int(fps × 10)`, i.e. fps×10 truncated toward zero
(not rounded); in particular fps "30" produces numerator 10 and
denominator 300. -/
theorem C3_fps_write_truncates
    (fps : String) (q : DecFloat) (hq : pyFloat? fps = some q) :
    set_fps_parm fps = .ok ⟨10, pyTrunc (q.toRat * 10)⟩ ∧
      set_fps_parm "30" = .ok ⟨10, 300⟩ := by
  constructor
  · simp only [set_fps_parm, hq]
    have h10 : ((10 : ℚ)) ^ q.e ≠ 0 := by positivity
    have h : pyTruncFrac (q.m * 10) (10 ^ q.e) = pyTrunc (q.toRat * 10) := by
      rw [pyTruncFrac_eq _ _ (by positivity)]
      congr 1
      rw [DecFloat.toRat]
      push_cast
      field_simp
    rw [h]
  · decide

/-- Closed witness for `C3_fps_write_truncates` at fps "30". -/
theorem C3_fps_write_truncates_witness :
    set_fps_parm "30" = .ok ⟨10, pyTrunc ((DecFloat.toRat ⟨30, 0⟩) * 10)⟩ ∧
      set_fps_parm "30" = .ok ⟨10, 300⟩ :=
  C3_fps_write_truncates "30" ⟨30, 0⟩ (by decide)

/-! ## Format backend: resolution enumeration -/

/-- `wh2str` (line 2604): format a frame size as "WxH". -/
def wh2str (w h : Nat) : String :=
  s!"{w}x{h}"

/-- Python `r.split(given one-character separator)` at the character level. -/
def splitOnChar (sep : Char) : List Char → List (List Char)
  | [] => [[]]
  | c :: rest =>
    if c = sep then [] :: splitOnChar sep rest
    else match splitOnChar sep rest with
      | [] => [[c]]
      | p :: ps => (c :: p) :: ps

/-- The sort key of line 2570: `list(map(int, r.split('x')))`.  Every string
reaching it was produced by `wh2str`, so each piece is a nonempty digit
string; `digitsVal` is Python `int` on exactly those. -/
def resKey (r : String) : List Nat :=
  (splitOnChar 'x' r.data).map digitsVal

/-- Python `<` on integer lists: lexicographic comparison. -/
def listLt : List Nat → List Nat → Bool
  | [], [] => false
  | [], _ :: _ => true
  | _ :: _, [] => false
  | a :: as, b :: bs => if a < b then true else if b < a then false else listLt as bs

theorem listLt_asymm : ∀ (a b : List Nat), listLt a b = true → listLt b a = false
  | [], [], h => by simp [listLt] at h
  | [], _ :: _, _ => by simp [listLt]
  | _ :: _, [], h => by simp [listLt] at h
  | x :: xs, y :: ys, h => by
    simp only [listLt] at h ⊢
    by_cases h1 : x < y
    · rw [if_neg (by omega : ¬ y < x), if_pos h1]
    · by_cases h2 : y < x
      · rw [if_neg h1, if_pos h2] at h
        exact absurd h (by simp)
      · rw [if_neg h1, if_neg h2] at h
        rw [if_neg h2, if_neg h1]
        exact listLt_asymm xs ys h

theorem listLt_trans_neg : ∀ (a b c : List Nat),
    listLt a b = false → listLt b c = false → listLt a c = false
  | [], b, c, hab, hbc => by
    cases b with
    | nil =>
      cases c with
      | nil => simp [listLt]
      | cons z zs => simp [listLt] at hbc
    | cons y ys => simp [listLt] at hab
  | x :: xs, b, c, hab, hbc => by
    cases c with
    | nil => cases xs <;> simp [listLt]
    | cons z zs =>
      cases b with
      | nil => simp [listLt] at hbc
      | cons y ys =>
        simp only [listLt] at hab hbc ⊢
        by_cases h1 : x < y
        · rw [if_pos h1] at hab
          exact absurd hab (by simp)
        · by_cases h2 : y < z
          · rw [if_pos h2] at hbc
            exact absurd hbc (by simp)
          · by_cases h3 : x < z
            · omega
            · rw [if_neg h3]
              by_cases h4 : z < x
              · rw [if_pos h4]
              · rw [if_neg h4]
                rw [if_neg h1, if_neg (by omega : ¬ y < x)] at hab
                rw [if_neg h2, if_neg (by omega : ¬ z < y)] at hbc
                exact listLt_trans_neg xs ys zs hab hbc

/-- The order `sort(key=..., reverse=True)` establishes: an element may stay
before another iff its key is not lexicographically smaller. -/
def resGE (a b : String) : Prop :=
  listLt (resKey a) (resKey b) = false

instance : DecidableRel resGE := fun _ _ => Bool.decEq _ _

instance : IsTotal String resGE :=
  ⟨fun a b => by
    unfold resGE
    by_cases h : listLt (resKey a) (resKey b) = true
    · right
      exact listLt_asymm _ _ h
    · left
      simpa using h⟩

instance : IsTrans String resGE :=
  ⟨fun _ _ _ hab hbc => listLt_trans_neg _ _ _ hab hbc⟩

/-- `V4L2FmtCtrls.get_resolutions` (lines 2557-2571) on the device's
enumerated discrete frame sizes: each is formatted "WxH", then
`resolutions.sort(key=lambda r: list(map(int, r.split('x'))), reverse=True)`.
Python's sort is stable, and a stable sort by a total preorder has a unique
result, so the stable `List.insertionSort` by the descending key order is an
exact model. -/
def get_resolutions (sizes : List (Nat × Nat)) : List String :=
  List.insertionSort resGE (sizes.map (fun wh => wh2str wh.1 wh.2))

/-- C4 counterexample: with device resolutions 90x200 and 100x100 the list
puts "100x100" (area 10000) before "90x200" (area 18000), so the list is not
sorted by descending pixel area as claimed. -/
theorem C4_area_order_counterexample :
    get_resolutions [(90, 200), (100, 100)] = ["100x100", "90x200"] ∧
      100 * 100 < 90 * 200 := by
  constructor
  · decide
  · decide

/-- C4 (amended): the enumerated resolution list contains exactly the device's
discrete resolutions formatted "WxH", sorted descending lexicographically by
(width, height) — not by pixel area. -/
theorem C4_resolutions_sorted_lex (sizes : List (Nat × Nat)) :
    (get_resolutions sizes).Perm (sizes.map (fun wh => wh2str wh.1 wh.2)) ∧
      (get_resolutions sizes).Sorted resGE :=
  ⟨List.perm_insertionSort _ _, List.sorted_insertionSort _ _⟩

/-! ## Control aggregator (`CameraCtrls`) -/

/-- A backend as the aggregator sees it (duck-typed objects exposing
`get_ctrls`/`setup_ctrls` in the source): the text ids of the controls it
owns, and its batch apply, which appends its warnings to the shared warning
list; an exception it raises propagates. -/
structure Backend where
  ctrlIds : List String
  setup : List (String × String) → List String → Except PyErr (List String)

/-- The collective unknown-controls warning of line 3182. -/
def unknown_warning (ks : List String) : String :=
  s!"CameraCtrls: cannot find {ks} controls"

/-- The distinct keys of a batch in first-occurrence order (Python
`set(params.keys())`; the set's iteration order is arbitrary, and the claims
depend only on membership). -/
def batchKeys (params : List (String × String)) : List String :=
  (params.map Prod.fst).dedup

/-- The batch keys owned by no backend:
`set(params.keys()) - set([c.text_id for c in self.get_ctrls()])`
(line 3180), where `get_ctrls` concatenates every backend's controls. -/
def unknownKeys (backends : List Backend) (params : List (String × String)) :
    List String :=
  (batchKeys params).filter
    (fun k => !(backends.any (fun b => decide (k ∈ b.ctrlIds))))

/-- `CameraCtrls.setup_ctrls` (lines 3176-3182): hand the same batch to every
backend in order, each appending its warnings, then report the keys no
backend owns in one collective warning (none when every key is known). -/
def CameraCtrls.setup_ctrls (backends : List Backend)
    (params : List (String × String)) (errs : List String) :
    Except PyErr (List String) := do
  let errs ← backends.foldlM (fun e b => b.setup params e) errs
  let unknown_ctrls := unknownKeys backends params
  if unknown_ctrls.length > 0 then
    return errs ++ [unknown_warning unknown_ctrls]
  else
    return errs

theorem foldlM_backends (params : List (String × String)) :
    ∀ {backends : List Backend} {ws : List (List String)},
      List.Forall₂ (fun (b : Backend) (w : List String) =>
        ∀ e, b.setup params e = .ok (e ++ w)) backends ws →
      ∀ e : List String,
        backends.foldlM (fun e b => b.setup params e) e = .ok (e ++ ws.join) := by
  intro backends ws hb
  induction hb with
  | nil =>
    intro e
    simp [List.foldlM]
    rfl
  | @cons b w bs wsr hbw hrest ih =>
    intro e
    simp only [List.foldlM_cons, hbw e, List.join_cons]
    have hbind : (Except.ok (e ++ w) : Except PyErr (List String)) >>=
        (fun b2 => bs.foldlM (fun e b => b.setup params e) b2) =
        bs.foldlM (fun e b => b.setup params e) (e ++ w) := rfl
    rw [hbind, ih (e ++ w), List.append_assoc]

/-- C5: the aggregator hands the entire batch to every backend in order, the
backends' warnings are concatenated in that order, and the keys owned by no
backend are reported in exactly one collective warning at the end (no warning
when there are none).  `ws` lists the warnings each backend appends for this
batch. -/
theorem C5_broadcast_concat_unknown
    (backends : List Backend) (params : List (String × String))
    (ws : List (List String))
    (hb : List.Forall₂ (fun (b : Backend) (w : List String) =>
        ∀ e, b.setup params e = .ok (e ++ w)) backends ws) :
    (CameraCtrls.setup_ctrls backends params [] =
      .ok (ws.join ++
        (if unknownKeys backends params = [] then []
         else [unknown_warning (unknownKeys backends params)]))) ∧
    (∀ k, k ∈ unknownKeys backends params ↔
      ((∃ v, (k, v) ∈ params) ∧ ∀ b ∈ backends, k ∉ b.ctrlIds)) := by
  constructor
  · rw [CameraCtrls.setup_ctrls]
    have hfold := foldlM_backends params hb []
    simp only [List.nil_append] at hfold
    rw [hfold]
    by_cases hu : unknownKeys backends params = []
    · simp [hu, Except.bind]
    · have : (unknownKeys backends params).length > 0 := by
        cases h : unknownKeys backends params with
        | nil => exact absurd h hu
        | cons a l => simp [h]
      simp [hu, this, Except.bind]
  · intro k
    simp only [unknownKeys, batchKeys, List.mem_filter, List.mem_dedup,
      List.mem_map, Bool.not_eq_true', List.any_eq_false,
      decide_eq_true_eq, Prod.exists]
    constructor
    · rintro ⟨⟨a, v, hv, rfl⟩, hall⟩
      exact ⟨⟨v, hv⟩, hall⟩
    · rintro ⟨⟨v, hv⟩, hall⟩
      exact ⟨⟨k, v, hv, rfl⟩, hall⟩

/-- Concrete backends for the C5 witness: the first owns "a" and warns, the
second owns "b" and is silent. -/
def c5Backends : List Backend :=
  [ { ctrlIds := ["a"], setup := fun _ e => .ok (e ++ ["warnA"]) },
    { ctrlIds := ["b"], setup := fun _ e => .ok e } ]

/-- The batch used by the C5 witness: one known key, one unknown key. -/
def c5Params : List (String × String) :=
  [("a", "1"), ("zz", "2")]

/-- Closed witness for `C5_broadcast_concat_unknown`. -/
theorem C5_broadcast_concat_unknown_witness :
    (CameraCtrls.setup_ctrls c5Backends c5Params [] =
      .ok ([["warnA"], []].join ++
        (if unknownKeys c5Backends c5Params = [] then []
         else [unknown_warning (unknownKeys c5Backends c5Params)]))) ∧
    (∀ k, k ∈ unknownKeys c5Backends c5Params ↔
      ((∃ v, (k, v) ∈ c5Params) ∧ ∀ b ∈ c5Backends, k ∉ b.ctrlIds)) :=
  C5_broadcast_concat_unknown c5Backends c5Params [["warnA"], []]
    (by
      refine List.Forall₂.cons (fun e => rfl) ?_
      refine List.Forall₂.cons (fun e => by simp) List.Forall₂.nil)

/-! ## Generic backend: menu enumeration and listener value resolution -/

/-- Python `range(lo, hi + 1)` over integers. -/
def intRange (lo hi : Int) : List Int :=
  (List.range (hi + 1 - lo).toNat).map (fun i => lo + (i : Int))

/-- Lines 2262-2265 of `get_device_controls`: a value that is still an int
after the menu loop becomes None. -/
def denoneInt : CtrlValue → CtrlValue
  | .int _ => CtrlValue.none
  | v => v

/-- One iteration of the menu loop (lines 2241-2258): a failed per-index query
(`qmenu i = none`) is skipped; a successful one appends a menu entry carrying
the index as encoded value (the entry's text id abstracts the name decoding of
lines 2247-2252) and resolves a live value / default equal to the index. -/
def menuStep (qmenu : Int → Option String)
    (st : List BaseCtrlMenu × CtrlValue × CtrlValue) (i : Int) :
    List BaseCtrlMenu × CtrlValue × CtrlValue :=
  match qmenu i with
  | Option.none => st
  | some tid =>
    (st.1 ++ [⟨tid, tid, i⟩],
     if st.2.1 = CtrlValue.int i then CtrlValue.str tid else st.2.1,
     if st.2.2 = CtrlValue.int i then CtrlValue.str tid else st.2.2)

/-- Lines 2239-2265 of `V4L2Ctrls.get_device_controls`, the menu resolution
for a Menu/IntegerMenu control: iterate the sparse indices of [min, max],
then turn a still-numeric value or default into None. -/
def resolveMenus (qmin qmax : Int) (qmenu : Int → Option String)
    (value0 default0 : Int) : List BaseCtrlMenu × CtrlValue × CtrlValue :=
  let st := (intRange qmin qmax).foldl (menuStep qmenu)
    ([], CtrlValue.int value0, CtrlValue.int default0)
  (st.1, denoneInt st.2.1, denoneInt st.2.2)

/-- The warning of line 2180 (unknown numeric code in a listener update). -/
def code_missing_warning (ctrl : V4L2Ctrl) : String :=
  s!"V4L2Ctrls: Cannot find the value in the menu of {ctrl.text_id}"

/-- `V4L2Ctrls.set_ctrl_int_value` (lines 2174-2182), the listener's control
update: non-menu controls store the int; menu controls resolve the numeric
code to a menu entry id, and an unknown code records a warning and leaves the
value unchanged. -/
def set_ctrl_int_value (ctrl : V4L2Ctrl) (intvalue : Int) (errs : List String) :
    V4L2Ctrl × List String :=
  if ctrl.type ≠ "menu" then ({ ctrl with value := CtrlValue.int intvalue }, errs)
  else
    match find_by_value ctrl.menu intvalue with
    | Option.none => (ctrl, errs ++ [code_missing_warning ctrl])
    | some m => ({ ctrl with value := CtrlValue.str m.text_id }, errs)

/-- A menu-control value is resolved: None, or the id of one of its entries
(in particular never a raw number). -/
def menuResolved (menu : List BaseCtrlMenu) (v : CtrlValue) : Prop :=
  v = CtrlValue.none ∨ ∃ m ∈ menu, v = CtrlValue.str m.text_id

theorem menuStep_foldl_inv (qmenu : Int → Option String) :
    ∀ (idxs : List Int) (st : List BaseCtrlMenu × CtrlValue × CtrlValue),
      ((∃ n, st.2.1 = CtrlValue.int n) ∨ menuResolved st.1 st.2.1) →
      ((∃ n, st.2.2 = CtrlValue.int n) ∨ menuResolved st.1 st.2.2) →
      ((∃ n, (idxs.foldl (menuStep qmenu) st).2.1 = CtrlValue.int n) ∨
          menuResolved (idxs.foldl (menuStep qmenu) st).1
            (idxs.foldl (menuStep qmenu) st).2.1) ∧
        ((∃ n, (idxs.foldl (menuStep qmenu) st).2.2 = CtrlValue.int n) ∨
          menuResolved (idxs.foldl (menuStep qmenu) st).1
            (idxs.foldl (menuStep qmenu) st).2.2) := by
  intro idxs
  induction idxs with
  | nil =>
    intro st h1 h2
    exact ⟨h1, h2⟩
  | cons i rest ih =>
    intro st h1 h2
    simp only [List.foldl_cons]
    refine ih (menuStep qmenu st i) ?_ ?_
    · rw [menuStep]
      cases hq : qmenu i with
      | none => exact h1
      | some tid =>
        by_cases hv : st.2.1 = CtrlValue.int i
        · right
          right
          exact ⟨⟨tid, tid, i⟩, by simp, by simp [hv]⟩
        · simp only [if_neg hv]
          rcases h1 with h1 | h1 | ⟨m, hm, hms⟩
          · exact Or.inl h1
          · exact Or.inr (Or.inl h1)
          · exact Or.inr (Or.inr ⟨m, by simp [hm], hms⟩)
    · rw [menuStep]
      cases hq : qmenu i with
      | none => exact h2
      | some tid =>
        by_cases hv : st.2.2 = CtrlValue.int i
        · right
          right
          exact ⟨⟨tid, tid, i⟩, by simp, by simp [hv]⟩
        · simp only [if_neg hv]
          rcases h2 with h2 | h2 | ⟨m, hm, hms⟩
          · exact Or.inl h2
          · exact Or.inr (Or.inl h2)
          · exact Or.inr (Or.inr ⟨m, by simp [hm], hms⟩)

theorem menuStep_foldl_unmatched (qmenu : Int → Option String) (v0 : Int) :
    ∀ (idxs : List Int) (st : List BaseCtrlMenu × CtrlValue × CtrlValue),
      st.2.1 = CtrlValue.int v0 →
      (∀ i ∈ idxs, qmenu i ≠ Option.none → i ≠ v0) →
      (idxs.foldl (menuStep qmenu) st).2.1 = CtrlValue.int v0 := by
  intro idxs
  induction idxs with
  | nil =>
    intro st h _
    exact h
  | cons i rest ih =>
    intro st h hall
    simp only [List.foldl_cons]
    refine ih (menuStep qmenu st i) ?_ (fun j hj => hall j (by simp [hj]))
    rw [menuStep]
    cases hq : qmenu i with
    | none => exact h
    | some tid =>
      have hne : i ≠ v0 := hall i (by simp) (by rw [hq]; simp)
      dsimp only
      rw [if_neg (by rw [h]; simp [Ne.symm hne])]
      exact h

theorem menuResolved_denone (menu : List BaseCtrlMenu) (v : CtrlValue)
    (h : (∃ n, v = CtrlValue.int n) ∨ menuResolved menu v) :
    menuResolved menu (denoneInt v) := by
  rcases h with ⟨n, rfl⟩ | h
  · left
    rfl
  · rcases h with rfl | ⟨m, hm, rfl⟩
    · left
      rfl
    · right
      exact ⟨m, hm, rfl⟩

/-- The menu control of the C6 listener scenario, exactly as enumeration
builds it from a device with one menu entry at index 1 and live value 1. -/
def c6Ctrl : V4L2Ctrl :=
  { v4l2_id := 6, text_id := "m", type := "menu", value := CtrlValue.str "a",
    default := CtrlValue.str "a", min := 1, max := 1,
    menu := [⟨"a", "a", 1⟩] }

/-- C6 counterexample: a listener update delivering numeric code 2, which
matches no menu entry, leaves the value at its previous entry id "a" and
records an error — it is not resolved to None as the claim states. -/
theorem C6_listener_none_counterexample :
    resolveMenus 1 1 (fun i => if i = 1 then some "a" else Option.none) 1 1 =
      ([⟨"a", "a", 1⟩], CtrlValue.str "a", CtrlValue.str "a") ∧
    (set_ctrl_int_value c6Ctrl 2 []).1.value = CtrlValue.str "a" ∧
    CtrlValue.str "a" ≠ CtrlValue.none ∧
    (set_ctrl_int_value c6Ctrl 2 []).2 ≠ [] := by
  refine ⟨by decide, by decide, by decide, by decide⟩

/-- C6 (amended): after enumeration a Menu control's value and default are a
menu entry id or None, and a live code matching no entry resolves to None;
a listener-driven update stores the entry id for a known code, while an
unknown code leaves the value unchanged and records an error — in neither
path is the raw number stored. -/
theorem C6_menu_value_resolution :
    (∀ (qmin qmax : Int) (qmenu : Int → Option String) (v0 d0 : Int),
      menuResolved (resolveMenus qmin qmax qmenu v0 d0).1
          (resolveMenus qmin qmax qmenu v0 d0).2.1 ∧
        menuResolved (resolveMenus qmin qmax qmenu v0 d0).1
          (resolveMenus qmin qmax qmenu v0 d0).2.2) ∧
    (∀ (qmin qmax : Int) (qmenu : Int → Option String) (v0 d0 : Int),
      (∀ i ∈ intRange qmin qmax, qmenu i ≠ Option.none → i ≠ v0) →
      (resolveMenus qmin qmax qmenu v0 d0).2.1 = CtrlValue.none) ∧
    (∀ (ctrl : V4L2Ctrl) (iv : Int) (errs : List String),
      ctrl.type = "menu" →
      (find_by_value ctrl.menu iv = Option.none →
        set_ctrl_int_value ctrl iv errs = (ctrl, errs ++ [code_missing_warning ctrl])) ∧
      (∀ m, find_by_value ctrl.menu iv = some m →
        set_ctrl_int_value ctrl iv errs =
          ({ ctrl with value := CtrlValue.str m.text_id }, errs))) := by
  refine ⟨?_, ?_, ?_⟩
  · intro qmin qmax qmenu v0 d0
    have h := menuStep_foldl_inv qmenu (intRange qmin qmax)
      ([], CtrlValue.int v0, CtrlValue.int d0) (Or.inl ⟨v0, rfl⟩) (Or.inl ⟨d0, rfl⟩)
    exact ⟨menuResolved_denone _ _ h.1, menuResolved_denone _ _ h.2⟩
  · intro qmin qmax qmenu v0 d0 hall
    have h := menuStep_foldl_unmatched qmenu v0 (intRange qmin qmax)
      ([], CtrlValue.int v0, CtrlValue.int d0) rfl hall
    have hres : (resolveMenus qmin qmax qmenu v0 d0).2.1 =
        denoneInt ((intRange qmin qmax).foldl (menuStep qmenu)
          ([], CtrlValue.int v0, CtrlValue.int d0)).2.1 := rfl
    rw [hres, h]
    rfl
  · intro ctrl iv errs htype
    constructor
    · intro hfind
      simp [set_ctrl_int_value, htype, hfind]
    · intro m hfind
      simp [set_ctrl_int_value, htype, hfind]

/-- Closed witness for `C6_menu_value_resolution`. -/
theorem C6_menu_value_resolution_witness :
    (menuResolved (resolveMenus 1 1 (fun i => if i = 1 then some "a" else Option.none) 1 1).1
        (resolveMenus 1 1 (fun i => if i = 1 then some "a" else Option.none) 1 1).2.1 ∧
      menuResolved (resolveMenus 1 1 (fun i => if i = 1 then some "a" else Option.none) 1 1).1
        (resolveMenus 1 1 (fun i => if i = 1 then some "a" else Option.none) 1 1).2.2) ∧
    (resolveMenus 1 1 (fun i => if i = 1 then some "a" else Option.none) 2 2).2.1 =
      CtrlValue.none ∧
    set_ctrl_int_value c6Ctrl 2 [] = (c6Ctrl, [] ++ [code_missing_warning c6Ctrl]) ∧
    set_ctrl_int_value c6Ctrl 1 [] = ({ c6Ctrl with value := CtrlValue.str "a" }, []) :=
  ⟨C6_menu_value_resolution.1 1 1 (fun i => if i = 1 then some "a" else Option.none) 1 1,
   C6_menu_value_resolution.2.1 1 1 (fun i => if i = 1 then some "a" else Option.none) 2 2
     (by decide),
   (C6_menu_value_resolution.2.2 c6Ctrl 2 [] rfl).1 (by decide),
   (C6_menu_value_resolution.2.2 c6Ctrl 1 [] rfl).2 ⟨"a", "a", 1⟩ (by decide)⟩

/-! ## Vendor extension backends: extension-unit id discovery -/

/-- `needle` is a prefix of `hay` (byte-wise). -/
def bytesStartsWith : List Nat → List Nat → Bool
  | _, [] => true
  | [], _ :: _ => false
  | a :: as, b :: bs => a == b && bytesStartsWith as bs

/-- Python `bytes.find`: scan for the first index at which the needle starts,
`-1` when it never does. -/
def bytesFindAux (needle : List Nat) : List Nat → Int → Int
  | [], i => if needle = [] then i else -1
  | h :: t, i =>
    if bytesStartsWith (h :: t) needle then i else bytesFindAux needle t (i + 1)

/-- Python `hay.find(needle)`. -/
def bytesFind (hay needle : List Nat) : Int :=
  bytesFindAux needle hay 0

/-- `find_unit_id_in_sysfs` (lines 1013-1030): the descriptors file contents
(`none` when the sysfs file is absent or unreadable) are scanned for the
GUID; `if guid_start > 0` the byte immediately before the match is the
extension unit id; otherwise — no match, a match at offset 0, or a missing
file — the result is 0 and no exception escapes. -/
def find_unit_id_in_sysfs (descriptors : Option (List Nat)) (guid : List Nat) : Nat :=
  match descriptors with
  | Option.none => 0
  | some ds =>
    if bytesFind ds guid > 0 then ds.getD (bytesFind ds guid - 1).toNat 0 else 0

/-- `UVC_EU1_GUID` (line 930), the Kiyo Pro extension-unit GUID. -/
def UVC_EU1_GUID : List Nat :=
  [0xd0, 0x9e, 0xe4, 0x23, 0x78, 0x11, 0x31, 0x4f,
   0xae, 0x52, 0xd2, 0xfb, 0x8a, 0x8d, 0x3b, 0x48]

/-- `KIYO_PRO_USB_ID` (line 933). -/
def KIYO_PRO_USB_ID : String := "1532:0e05"

/-- `KiyoProCtrls.supported` (lines 1182-1183): a zero unit id (or a foreign
device) makes the backend report itself unsupported. -/
def KiyoProCtrls.supported (unit_id : Nat) (usb_ids : String) : Bool :=
  unit_id != 0 && usb_ids == KIYO_PRO_USB_ID

/-- The GUID occurs in the blob at byte offset `i`. -/
def occursAt (ds guid : List Nat) (i : Nat) : Prop :=
  bytesStartsWith (ds.drop i) guid = true

instance (ds guid : List Nat) (i : Nat) : Decidable (occursAt ds guid i) :=
  Bool.decEq _ _

theorem bytesStartsWith_length : ∀ (hay needle : List Nat),
    bytesStartsWith hay needle = true → needle.length ≤ hay.length
  | _, [], _ => by simp
  | [], _ :: _, h => by simp [bytesStartsWith] at h
  | _ :: as, _ :: bs, h => by
    simp only [bytesStartsWith, Bool.and_eq_true] at h
    simpa using bytesStartsWith_length as bs h.2

/-- A needle longer than the blob occurs nowhere. -/
theorem no_occurrence_of_longer (ds guid : List Nat) (h : ds.length < guid.length) :
    ∀ j, ¬ occursAt ds guid j := by
  intro j hocc
  have hle := bytesStartsWith_length _ _ hocc
  have hd : (ds.drop j).length ≤ ds.length := by
    simp only [List.length_drop]
    omega
  omega

theorem bytesFindAux_neg (needle : List Nat) (hne : needle ≠ []) :
    ∀ (hay : List Nat) (k : Int),
      (∀ j, bytesStartsWith (hay.drop j) needle = false) →
      bytesFindAux needle hay k = -1 := by
  intro hay
  induction hay with
  | nil =>
    intro k _
    simp [bytesFindAux, hne]
  | cons h t ih =>
    intro k hall
    rw [bytesFindAux, if_neg (by simpa using hall 0)]
    exact ih (k + 1) (fun j => by simpa using hall (j + 1))

theorem bytesFindAux_pos (needle : List Nat) :
    ∀ (hay : List Nat) (i : Nat) (k : Int),
      bytesStartsWith (hay.drop i) needle = true →
      (∀ j < i, bytesStartsWith (hay.drop j) needle = false) →
      bytesFindAux needle hay k = k + i := by
  intro hay
  induction hay with
  | nil =>
    intro i k hocc hbefore
    have hneedle : needle = [] := by
      cases needle with
      | nil => rfl
      | cons b bs => simp [List.drop_nil, bytesStartsWith] at hocc
    have hi : i = 0 := by
      by_contra hni
      have := hbefore 0 (by omega)
      rw [hneedle] at this
      simp [bytesStartsWith] at this
    subst hi
    simp [bytesFindAux, hneedle]
  | cons h t ih =>
    intro i k hocc hbefore
    cases i with
    | zero =>
      rw [bytesFindAux, if_pos (by simpa using hocc)]
      simp
    | succ j =>
      rw [bytesFindAux, if_neg (by simpa using hbefore 0 (by omega))]
      have := ih j (k + 1) (by simpa using hocc)
        (fun j2 hj2 => by simpa using hbefore (j2 + 1) (by omega))
      rw [this]
      push_cast
      ring

/-- C7: when the blob contains the GUID with at least one byte before its
first occurrence, unit-id resolution returns the byte immediately preceding
it (5 in the spec's synthetic example); when the GUID does not occur, and
when the descriptor source is absent, resolution returns 0 and the backend
reports itself unsupported instead of raising. -/
theorem C7_unit_id_resolution
    (ds guid : List Nat) (i : Nat) (usb_ids : String) :
    (occursAt ds guid i → 1 ≤ i → (∀ j < i, ¬ occursAt ds guid j) →
      find_unit_id_in_sysfs (some ds) guid = ds.getD (i - 1) 0) ∧
    ((∀ j, ¬ occursAt ds guid j) →
      find_unit_id_in_sysfs (some ds) guid = 0 ∧
        KiyoProCtrls.supported (find_unit_id_in_sysfs (some ds) guid) usb_ids = false) ∧
    (find_unit_id_in_sysfs Option.none guid = 0 ∧
      KiyoProCtrls.supported (find_unit_id_in_sysfs Option.none guid) usb_ids = false) ∧
    find_unit_id_in_sysfs (some ([0x05] ++ UVC_EU1_GUID ++ [0xff])) UVC_EU1_GUID = 5 := by
  refine ⟨?_, ?_, ⟨rfl, rfl⟩, by decide⟩
  · intro hocc hi hbefore
    have hfind : bytesFind ds guid = (i : Int) := by
      have := bytesFindAux_pos guid ds i 0 hocc
        (fun j hj => by simpa [occursAt] using fun habs => hbefore j hj habs)
      simpa [bytesFind] using this
    rw [find_unit_id_in_sysfs, hfind]
    rw [if_pos (by exact_mod_cast hi)]
    congr 1
    omega
  · intro hall
    have hne : guid ≠ [] := by
      intro hg
      exact hall 0 (by simp [occursAt, hg, bytesStartsWith])
    have hfind : bytesFind ds guid = -1 := by
      apply bytesFindAux_neg guid hne ds 0
      intro j
      have := hall j
      simpa [occursAt] using this
    constructor
    · rw [find_unit_id_in_sysfs, hfind]
      rfl
    · rw [find_unit_id_in_sysfs, hfind]
      rfl

/-- Closed witness for `C7_unit_id_resolution`: a blob with 0x05 before the
GUID yields 5, a short junk blob yields 0/unsupported. -/
theorem C7_unit_id_resolution_witness :
    (find_unit_id_in_sysfs (some ([5] ++ UVC_EU1_GUID)) UVC_EU1_GUID =
      ([5] ++ UVC_EU1_GUID).getD (1 - 1) 0) ∧
    (find_unit_id_in_sysfs (some [1, 2, 3]) UVC_EU1_GUID = 0 ∧
      KiyoProCtrls.supported (find_unit_id_in_sysfs (some [1, 2, 3]) UVC_EU1_GUID)
        "9999:9999" = false) :=
  ⟨(C7_unit_id_resolution ([5] ++ UVC_EU1_GUID) UVC_EU1_GUID 1 "9999:9999").1
      (by decide) (by decide) (by decide),
   (C7_unit_id_resolution [1, 2, 3] UVC_EU1_GUID 0 "9999:9999").2.1
      (no_occurrence_of_longer [1, 2, 3] UVC_EU1_GUID (by decide))⟩

/-! ## Wire codec: FOURCC pixel-format packing -/

/-- Python `ord(s[i])` (the claims only reach it with long-enough strings, so
the default is dead code there). -/
def pyOrd (s : String) (i : Nat) : Nat :=
  (s.data.getD i (Char.ofNat 0)).toNat

/-- `str2pxf` (lines 2598-2599):
`ord(str[0]) | ord(str[1]) << 8 | ord(str[2]) << 16 | ord(str[3]) << 24`. -/
def str2pxf (s : String) : Nat :=
  pyOrd s 0 ||| pyOrd s 1 <<< 8 ||| pyOrd s 2 <<< 16 ||| pyOrd s 3 <<< 24

/-- `pxf2str` (lines 2601-2602): `chr(pxf & 0xff) + chr(pxf >> 8 & 0xff) +
chr(pxf >> 16 & 0xff) + chr(pxf >> 24 & 0xff)`. -/
def pxf2str (pxf : Nat) : String :=
  ⟨[Char.ofNat (pxf &&& 0xff), Char.ofNat (pxf >>> 8 &&& 0xff),
    Char.ofNat (pxf >>> 16 &&& 0xff), Char.ofNat (pxf >>> 24 &&& 0xff)]⟩

/-! ## Live listener (`V4L2Listener`): format-change polling -/

/-- A cached format control as the listener sees it (the pixel-format,
resolution and fps `BaseCtrl`s; only identity and value matter here). -/
structure LCtrl where
  text_id : String
  value : CtrlValue
  deriving DecidableEq, Repr

/-- `V4L2Listener.update_ctrl` (lines 2309-2312): a missing control is
skipped; a changed value is written into the cache and the control appended
to the update list. -/
def update_ctrl (ctrl : Option LCtrl) (value : CtrlValue) (updates : List LCtrl) :
    Option LCtrl × List LCtrl :=
  match ctrl with
  | Option.none => (Option.none, updates)
  | some c =>
    if c.value ≠ value then
      (some { c with value := value }, updates ++ [{ c with value := value }])
    else (some c, updates)

/-- The listener's cached format controls. -/
structure FmtState where
  pxf_ctrl : Option LCtrl
  res_ctrl : Option LCtrl
  fps_ctrl : Option LCtrl
  deriving DecidableEq, Repr

/-- `V4L2Listener.query_fmt_changes` (lines 2314-2327), run on every poll
timeout.  `fmt` is the `VIDIOC_G_FMT` result (`none` when the query failed)
as (pixel-format code, width, height); `fps` is `get_fps()` (a string, or
int 0 on failure).  Every differing cache is updated, but the callback list
contains only `updates[0]` — the first differing control. -/
def query_fmt_changes (st : FmtState) (fmt : Option (Nat × Nat × Nat))
    (fps : CtrlValue) : FmtState × List LCtrl :=
  let updates : List LCtrl := []
  let r :=
    match fmt with
    | some (pf, w, h) =>
      let (pxf, updates) := update_ctrl st.pxf_ctrl (CtrlValue.str (pxf2str pf)) updates
      let (res, updates) := update_ctrl st.res_ctrl (CtrlValue.str (wh2str w h)) updates
      (pxf, res, updates)
    | Option.none => (st.pxf_ctrl, st.res_ctrl, updates)
  let (fpsc, updates) := update_ctrl st.fps_ctrl fps r.2.2
  (⟨r.1, r.2.1, fpsc⟩, if updates.length > 0 then updates.take 1 else [])

/-- Specification-side list of the controls whose cached value differs from
the live value, in the order the listener checks them (pixel format,
resolution, fps), already carrying their new values. -/
def changedCtrls (st : FmtState) (fmt : Option (Nat × Nat × Nat))
    (fps : CtrlValue) : List LCtrl :=
  (match fmt, st.pxf_ctrl with
   | some (pf, _, _), some c =>
     if c.value ≠ CtrlValue.str (pxf2str pf) then
       [{ c with value := CtrlValue.str (pxf2str pf) }]
     else []
   | _, _ => []) ++
  (match fmt, st.res_ctrl with
   | some (_, w, h), some c =>
     if c.value ≠ CtrlValue.str (wh2str w h) then
       [{ c with value := CtrlValue.str (wh2str w h) }]
     else []
   | _, _ => []) ++
  (match st.fps_ctrl with
   | some c => if c.value ≠ fps then [{ c with value := fps }] else []
   | Option.none => [])

/-- Specification-side cache update: a present control queried against a live
value ends with that value (unchanged when it already had it). -/
def cacheAfter (ctrl : Option LCtrl) (target : Option CtrlValue) : Option LCtrl :=
  match ctrl, target with
  | some c, some v => some { c with value := v }
  | _, _ => ctrl

theorem LCtrl_eta (c : LCtrl) (v : CtrlValue) (h : c.value = v) :
    c = ⟨c.text_id, v⟩ := by
  cases c
  cases h
  rfl

/-- C8: in a timeout poll cycle, every differing cached control is updated,
and the callback list is exactly the first differing control — one callback
when at least one of the three fields differs, none when none does. -/
theorem C8_first_differing_only (st : FmtState) (fmt : Option (Nat × Nat × Nat))
    (fps : CtrlValue) :
    query_fmt_changes st fmt fps =
      (⟨cacheAfter st.pxf_ctrl (fmt.map (fun f => CtrlValue.str (pxf2str f.1))),
        cacheAfter st.res_ctrl (fmt.map (fun f => CtrlValue.str (wh2str f.2.1 f.2.2))),
        cacheAfter st.fps_ctrl (some fps)⟩,
       (changedCtrls st fmt fps).take 1) ∧
    ((query_fmt_changes st fmt fps).2.length =
      if changedCtrls st fmt fps = [] then 0 else 1) ∧
    (changedCtrls st fmt fps = [] → query_fmt_changes st fmt fps = (st, [])) := by
  obtain ⟨pc, rc, fc⟩ := st
  have main : query_fmt_changes ⟨pc, rc, fc⟩ fmt fps =
      (⟨cacheAfter pc (fmt.map (fun f => CtrlValue.str (pxf2str f.1))),
        cacheAfter rc (fmt.map (fun f => CtrlValue.str (wh2str f.2.1 f.2.2))),
        cacheAfter fc (some fps)⟩,
       (changedCtrls ⟨pc, rc, fc⟩ fmt fps).take 1) := by
    rcases fmt with _ | ⟨pf, w, h⟩ <;>
      rcases pc with _ | c1 <;> rcases rc with _ | c2 <;> rcases fc with _ | c3 <;>
        simp only [query_fmt_changes, update_ctrl, changedCtrls, cacheAfter,
          Option.map_some', Option.map_none'] <;>
        split_ifs <;>
        simp_all [LCtrl.mk.injEq] <;>
        (try exact ⟨LCtrl_eta _ _ (by assumption), LCtrl_eta _ _ (by assumption),
          LCtrl_eta _ _ (by assumption)⟩) <;>
        (try exact ⟨LCtrl_eta _ _ (by assumption), LCtrl_eta _ _ (by assumption)⟩) <;>
        (try exact LCtrl_eta _ _ (by assumption))
  refine ⟨main, ?_, ?_⟩
  · rw [main]
    cases h : changedCtrls ⟨pc, rc, fc⟩ fmt fps <;> simp [h]
  · intro h
    rw [main, h]
    rcases fmt with _ | ⟨pf, w, h2⟩ <;>
      rcases pc with _ | c1 <;> rcases rc with _ | c2 <;> rcases fc with _ | c3 <;>
        simp_all [changedCtrls, cacheAfter] <;>
        (try constructor) <;> (try constructor) <;>
        (try exact (LCtrl_eta _ _ (by simp_all)).symm)

/-! ## FOURCC round trip (C9) -/

theorem byteLt (x : Nat) (i : Nat) (hx : x < 256) (hi : 8 ≤ i) :
    x.testBit i = false := by
  apply Nat.testBit_lt_two_pow
  calc x < 256 := hx
    _ = 2 ^ 8 := by norm_num
    _ ≤ 2 ^ i := Nat.pow_le_pow_right (by norm_num) hi

theorem extract_byte0 (a b c d : Nat) (ha : a < 256) :
    (a ||| b <<< 8 ||| c <<< 16 ||| d <<< 24) &&& 0xff = a := by
  apply Nat.eq_of_testBit_eq
  intro i
  simp only [Nat.testBit_land, Nat.testBit_lor, Nat.testBit_shiftLeft]
  rw [show (0xff : Nat) = 2 ^ 8 - 1 from rfl, Nat.testBit_two_pow_sub_one]
  by_cases hi : i < 8
  · simp [hi, show ¬ (i ≥ 8) by omega, show ¬ (i ≥ 16) by omega,
      show ¬ (i ≥ 24) by omega]
  · simp [hi, byteLt a i ha (by omega)]

theorem extract_byte1 (a b c d : Nat) (ha : a < 256) (hb : b < 256) :
    (a ||| b <<< 8 ||| c <<< 16 ||| d <<< 24) >>> 8 &&& 0xff = b := by
  apply Nat.eq_of_testBit_eq
  intro i
  simp only [Nat.testBit_land, Nat.testBit_shiftRight, Nat.testBit_lor,
    Nat.testBit_shiftLeft]
  rw [show (0xff : Nat) = 2 ^ 8 - 1 from rfl, Nat.testBit_two_pow_sub_one]
  by_cases hi : i < 8
  · simp [hi, show 8 + i ≥ 8 by omega, show ¬ (8 + i ≥ 16) by omega,
      show ¬ (8 + i ≥ 24) by omega, byteLt a (8 + i) ha (by omega),
      Nat.add_sub_cancel_left]
  · simp [hi, byteLt b i hb (by omega)]

theorem extract_byte2 (a b c d : Nat) (ha : a < 256) (hb : b < 256) (hc : c < 256) :
    (a ||| b <<< 8 ||| c <<< 16 ||| d <<< 24) >>> 16 &&& 0xff = c := by
  apply Nat.eq_of_testBit_eq
  intro i
  simp only [Nat.testBit_land, Nat.testBit_shiftRight, Nat.testBit_lor,
    Nat.testBit_shiftLeft]
  rw [show (0xff : Nat) = 2 ^ 8 - 1 from rfl, Nat.testBit_two_pow_sub_one]
  by_cases hi : i < 8
  · have h16 : 16 + i - 8 = 8 + i := by omega
    simp [hi, show 16 + i ≥ 8 by omega, show 16 + i ≥ 16 by omega,
      show ¬ (16 + i ≥ 24) by omega, byteLt a (16 + i) ha (by omega), h16,
      byteLt b (8 + i) hb (by omega), Nat.add_sub_cancel_left]
  · simp [hi, byteLt c i hc (by omega)]

theorem extract_byte3 (a b c d : Nat) (ha : a < 256) (hb : b < 256)
    (hc : c < 256) (hd : d < 256) :
    (a ||| b <<< 8 ||| c <<< 16 ||| d <<< 24) >>> 24 &&& 0xff = d := by
  apply Nat.eq_of_testBit_eq
  intro i
  simp only [Nat.testBit_land, Nat.testBit_shiftRight, Nat.testBit_lor,
    Nat.testBit_shiftLeft]
  rw [show (0xff : Nat) = 2 ^ 8 - 1 from rfl, Nat.testBit_two_pow_sub_one]
  by_cases hi : i < 8
  · have h8 : 24 + i - 8 = 16 + i := by omega
    have h16 : 24 + i - 16 = 8 + i := by omega
    simp [hi, show 24 + i ≥ 8 by omega, show 24 + i ≥ 16 by omega,
      show 24 + i ≥ 24 by omega, byteLt a (24 + i) ha (by omega), h8, h16,
      byteLt b (16 + i) hb (by omega), byteLt c (8 + i) hc (by omega),
      Nat.add_sub_cancel_left]
  · simp [hi, byteLt d i hd (by omega)]

/-- C9: `pxf2str` is a left inverse of `str2pxf` on 4-character strings whose
code points are below 256; in particular the round trip preserves "YUYV". -/
theorem C9_fourcc_roundtrip (s : String) (c0 c1 c2 c3 : Char)
    (hs : s.data = [c0, c1, c2, c3])
    (h0 : c0.toNat < 256) (h1 : c1.toNat < 256)
    (h2 : c2.toNat < 256) (h3 : c3.toNat < 256) :
    pxf2str (str2pxf s) = s ∧ pxf2str (str2pxf "YUYV") = "YUYV" := by
  refine ⟨?_, by decide⟩
  have ho0 : pyOrd s 0 = c0.toNat := by simp [pyOrd, hs]
  have ho1 : pyOrd s 1 = c1.toNat := by simp [pyOrd, hs]
  have ho2 : pyOrd s 2 = c2.toNat := by simp [pyOrd, hs]
  have ho3 : pyOrd s 3 = c3.toNat := by simp [pyOrd, hs]
  rw [pxf2str, str2pxf, ho0, ho1, ho2, ho3,
    extract_byte0 _ _ _ _ h0, extract_byte1 _ _ _ _ h0 h1,
    extract_byte2 _ _ _ _ h0 h1 h2, extract_byte3 _ _ _ _ h0 h1 h2 h3,
    Char.ofNat_toNat, Char.ofNat_toNat, Char.ofNat_toNat, Char.ofNat_toNat]
  exact congrArg String.mk hs.symm

/-- Closed witness for `C9_fourcc_roundtrip` at "YUYV". -/
theorem C9_fourcc_roundtrip_witness :
    pxf2str (str2pxf "YUYV") = "YUYV" ∧ pxf2str (str2pxf "YUYV") = "YUYV" :=
  C9_fourcc_roundtrip "YUYV" 'Y' 'U' 'Y' 'V' (by decide)
    (by decide) (by decide) (by decide) (by decide)

/-! ## AnkerWork vendor backend: face-compensation encoding (C10) -/

/-- `AnkerWorkCtrls._int_from_bytes` (lines 2030-2032): little-endian
unsigned decoding of a byte buffer. -/
def int_from_bytes (bs : List Nat) : Nat :=
  bs.foldr (fun b acc => acc * 256 + b) 0

/-- `AnkerWorkCtrls._bytes_from_int` (lines 2034-2036):
`number.to_bytes(1, byteorder='little', signed=False)` — Python raises
OverflowError unless `0 ≤ n < 256`. -/
def bytes_from_int (n : Int) : Except PyErr (List Nat) :=
  if 0 ≤ n ∧ n < 256 then .ok [n.toNat] else .error .overflowError

/-- `AnkerWorkCtrls._map_comp_to_int` (lines 2038-2041):
`assert 0 <= value <= 100` then `value << 8`. -/
def map_comp_to_int (value : Int) : Except PyErr Int :=
  if 0 ≤ value ∧ value ≤ 100 then .ok (value * 2 ^ 8) else .error .assertionError

/-- The encoder of line 2073 for `ankerwork_face_compensation`:
`cur_enable = _int_from_bytes(current_config) & 0xff`, then
`_bytes_from_int(_map_comp_to_int(int(v)) + cur_enable)`. -/
def ankerCompDesired (v : Int) (current_config : List Nat) : Except PyErr (List Nat) := do
  let cur_enable : Int := (int_from_bytes current_config &&& 0xff : Nat)
  let m ← map_comp_to_int v
  bytes_from_int (m + cur_enable)

/-- An AnkerWork control (the fields the embedded path uses). -/
structure AnkerCtrl where
  text_id : String
  type : String
  selector : Nat
  length : Nat
  value : CtrlValue
  deriving DecidableEq, Repr

/-- `find_by_text_id` over AnkerWork controls. -/
def findAnkerByTextId : List AnkerCtrl → String → Option AnkerCtrl
  | [], _ => Option.none
  | c :: cs, k => if c.text_id = k then some c else findAnkerByTextId cs k

/-- In-place mutation of the control found by `findAnkerByTextId`. -/
def updateAnkerFirst (f : AnkerCtrl → AnkerCtrl) : List AnkerCtrl → String → List AnkerCtrl
  | [], _ => []
  | c :: cs, k => if c.text_id = k then f c :: cs else c :: updateAnkerFirst f cs k

/-- The per-entry work of `AnkerWorkCtrls.setup_ctrls` (lines 2051-2101) for
the vendor's one integer control, `ankerwork_face_compensation` (lines
2056-2057, 2070-2073, 2085-2101): read the current register (`getCur`),
encode the requested value with `ankerCompDesired` — an exception it raises
escapes uncaught, there is no try/except in this backend — write it
(`afterSet` gives the register contents the following read-back reports),
warn on a read-back mismatch, else store the new value.  Entries matching no
control are skipped; the vendor's menu/button controls are not exercised by
the claims and are outside this model. -/
def anker_comp_step (getCur : Nat → List Nat) (afterSet : Nat → List Nat → List Nat)
    (st : List AnkerCtrl × List String) (k v : String) :
    Except PyErr (List AnkerCtrl × List String) :=
  match findAnkerByTextId st.1 k with
  | Option.none => .ok st
  | some ctrl => do
    let current_config := getCur ctrl.selector
    let iv ← (match pyInt? v with
      | some n => Except.ok n
      | Option.none => Except.error PyErr.valueError)
    let desired ← ankerCompDesired iv current_config
    let current := afterSet ctrl.selector desired
    if current ≠ desired then
      .ok (st.1, st.2 ++ [s!"AnkerWorkCtrls: failed to set {k}"])
    else
      .ok (updateAnkerFirst (fun c => { c with value := CtrlValue.bytes desired })
        st.1 k, st.2)

/-- The AnkerWork backend as the aggregator drives it, scoped to its
face-compensation control. -/
def ankerBackend (getCur : Nat → List Nat) (afterSet : Nat → List Nat → List Nat)
    (ctrls : List AnkerCtrl) : Backend :=
  { ctrlIds := ctrls.map AnkerCtrl.text_id,
    setup := fun params errs =>
      (params.foldlM (fun st kv => anker_comp_step getCur afterSet st kv.1 kv.2)
        (ctrls, errs)).map Prod.snd }

set_option maxRecDepth 4000 in
/-- C10: the face-compensation encoder raises an uncaught OverflowError for
every requested value 1..100 (`v << 8` plus the current enable flag never
fits one byte), succeeds only for 0, fails its assertion outside [0, 100],
and the exception escapes the backend's apply and the aggregator's batch
apply instead of being recorded as a warning. -/
theorem C10_face_compensation_overflow
    (v : Int) (cur : List Nat)
    (getCur : Nat → List Nat) (afterSet : Nat → List Nat → List Nat)
    (ctrls : List AnkerCtrl) (ctrl : AnkerCtrl) (k s : String)
    (errs : List String)
    (hfind : findAnkerByTextId ctrls k = some ctrl)
    (hs : pyInt? s = some v) :
    (1 ≤ v → v ≤ 100 → ankerCompDesired v cur = .error .overflowError) ∧
    (v = 0 → ∃ bs, ankerCompDesired v cur = .ok bs) ∧
    ((v < 0 ∨ 100 < v) → ankerCompDesired v cur = .error .assertionError) ∧
    (1 ≤ v → v ≤ 100 →
      CameraCtrls.setup_ctrls [ankerBackend getCur afterSet ctrls] [(k, s)] errs =
        .error .overflowError) := by
  have hcur0 : (0 : Int) ≤ ((int_from_bytes cur &&& 0xff : Nat) : Int) := by positivity
  have hcur255 : ((int_from_bytes cur &&& 0xff : Nat) : Int) ≤ 255 := by
    have h : (int_from_bytes cur &&& 0xff : Nat) ≤ 0xff := Nat.and_le_right
    exact_mod_cast h
  have hover : ∀ cur2, 1 ≤ v → v ≤ 100 →
      ankerCompDesired v cur2 = .error .overflowError := by
    intro cur2 h1 h100
    have hc0 : (0 : Int) ≤ ((int_from_bytes cur2 &&& 0xff : Nat) : Int) := by positivity
    rw [ankerCompDesired, map_comp_to_int, if_pos ⟨by omega, h100⟩]
    show bytes_from_int _ = _
    rw [bytes_from_int, if_neg]
    rintro ⟨-, hlt⟩
    have : (256 : Int) ≤ v * 2 ^ 8 := by nlinarith
    omega
  refine ⟨hover cur, ?_, ?_, ?_⟩
  · rintro rfl
    rw [ankerCompDesired, map_comp_to_int, if_pos ⟨le_refl 0, by norm_num⟩]
    show ∃ bs, bytes_from_int (0 * 2 ^ 8 + ((int_from_bytes cur &&& 0xff : Nat) : Int)) =
      Except.ok bs
    rw [bytes_from_int, if_pos ⟨by omega, by omega⟩]
    exact ⟨_, rfl⟩
  · intro hout
    rw [ankerCompDesired, map_comp_to_int, if_neg (by omega)]
    rfl
  · intro h1 h100
    have hstep : anker_comp_step getCur afterSet (ctrls, errs) k s =
        .error .overflowError := by
      rw [anker_comp_step, hfind]
      show (match pyInt? s with
        | some n => Except.ok n
        | Option.none => Except.error PyErr.valueError) >>= _ = _
      rw [hs]
      show ankerCompDesired v (getCur ctrl.selector) >>= _ = _
      rw [hover (getCur ctrl.selector) h1 h100]
      rfl
    have hback : (ankerBackend getCur afterSet ctrls).setup [(k, s)] errs =
        .error .overflowError := by
      show Except.map Prod.snd
        (List.foldlM (fun st kv => anker_comp_step getCur afterSet st kv.1 kv.2)
          (ctrls, errs) [(k, s)]) = _
      rw [List.foldlM_cons, hstep]
      rfl
    rw [CameraCtrls.setup_ctrls]
    rw [List.foldlM_cons, hback]
    rfl

/-- Closed witness for `C10_face_compensation_overflow` at v = 50. -/
theorem C10_face_compensation_overflow_witness :
    (1 ≤ (50 : Int) → (50 : Int) ≤ 100 →
      ankerCompDesired 50 [1, 0] = .error .overflowError) ∧
    ((50 : Int) = 0 → ∃ bs, ankerCompDesired 50 [1, 0] = .ok bs) ∧
    (((50 : Int) < 0 ∨ 100 < (50 : Int)) →
      ankerCompDesired 50 [1, 0] = .error .assertionError) ∧
    (1 ≤ (50 : Int) → (50 : Int) ≤ 100 →
      CameraCtrls.setup_ctrls
        [ankerBackend (fun _ => [1, 0]) (fun _ bs => bs)
          [⟨"ankerwork_face_compensation", "integer", 0xb, 2, CtrlValue.none⟩]]
        [("ankerwork_face_compensation", "50")] [] = .error .overflowError) :=
  C10_face_compensation_overflow 50 [1, 0] (fun _ => [1, 0]) (fun _ bs => bs)
    [⟨"ankerwork_face_compensation", "integer", 0xb, 2, CtrlValue.none⟩]
    ⟨"ankerwork_face_compensation", "integer", 0xb, 2, CtrlValue.none⟩
    "ankerwork_face_compensation" "50" [] (by decide) (by decide)

end Cameractrls
